import Mathlib

/-!
Verification development for the ALDI Mobile data-cap manager (`src/app.py`).

The Python source is shallowly embedded: pure helpers become Lean functions,
stateful code becomes explicit state passing, wall-clock times are rationals
(seconds), data volumes are rationals (GB/MB), and fallible code returns
`Option`/`Except`.  Python `float` values are modelled as rationals; the
parser model `pyFloat?` covers sign/digits/fraction/exponent literals
(`inf`/`nan` and digit underscores are omitted, no claim depends on them).
-/

/-! ### String helpers (models of Python `str` operations) -/

/-- Model of Python `str.lower()` (ASCII case folding). -/
def strLower (s : String) : String := String.mk (s.toList.map Char.toLower)

/-- Strip leading and trailing whitespace from a char list. -/
def listTrim (cs : List Char) : List Char :=
  ((cs.dropWhile Char.isWhitespace).reverse.dropWhile Char.isWhitespace).reverse

/-- Model of Python `s.strip()`. -/
def pyStrip (s : String) : String := String.mk (listTrim s.toList)

/-- Model of Python `s.lstrip()`. -/
def pyLStrip (s : String) : String := String.mk (s.toList.dropWhile Char.isWhitespace)

/-- `listPrefixEq hay needle` is true when `needle` is a prefix of `hay`. -/
def listPrefixEq : List Char → List Char → Bool
  | _, [] => true
  | [], _ :: _ => false
  | a :: as, b :: bs => (a == b) && listPrefixEq as bs

/-- `listHasSub hay needle` is true when `needle` occurs contiguously in `hay`. -/
def listHasSub : List Char → List Char → Bool
  | [], needle => needle.isEmpty
  | hay@(_ :: rest), needle => listPrefixEq hay needle || listHasSub rest needle

/-- Model of Python `needle in hay` on strings. -/
def strContainsSub (hay needle : String) : Bool :=
  listHasSub hay.toList needle.toList

/-- Split a char list into its maximal whitespace-free words. -/
def wordsAux : List Char → List Char → List (List Char)
  | [], cur => if cur.isEmpty then [] else [cur.reverse]
  | c :: cs, cur =>
    if c.isWhitespace then
      if cur.isEmpty then wordsAux cs [] else cur.reverse :: wordsAux cs []
    else wordsAux cs (c :: cur)

/-- Join words with single spaces. -/
def joinSpace : List (List Char) → List Char
  | [] => []
  | [w] => w
  | w :: ws => w ++ ' ' :: joinSpace ws

/-- Model of Python `" ".join(s.split())`: collapse whitespace runs. -/
def normalizeWs (s : String) : String :=
  String.mk (joinSpace (wordsAux s.toList []))

/-- Model of Python `s.isdigit()` restricted to ASCII digits. -/
def pyIsDigit (s : String) : Bool :=
  !s.toList.isEmpty && s.toList.all Char.isDigit

/-- Numeric value of a list of ASCII digit characters (model of `int(s)`). -/
def digitsToNat (ds : List Char) : ℕ :=
  ds.foldl (fun a c => a * 10 + (c.toNat - 48)) 0

/-- Split a char list into its leading digit run and the remainder. -/
def takeDigits (cs : List Char) : List Char × List Char :=
  (cs.takeWhile Char.isDigit, cs.dropWhile Char.isDigit)

/-- Model of Python `float(s)`: strips whitespace, then parses an optional
sign, a decimal mantissa and an optional exponent, returning the exact
rational value; `none` models a raised `ValueError`. -/
def pyFloat? (s : String) : Option ℚ :=
  let cs0 := listTrim s.toList
  let sp : ℚ × List Char :=
    match cs0 with
    | '+' :: r => (1, r)
    | '-' :: r => (-1, r)
    | r => (1, r)
  let sgn := sp.1
  let (ip, cs1) := takeDigits sp.2
  let fpp : List Char × List Char :=
    match cs1 with
    | '.' :: r => takeDigits r
    | r => ([], r)
  let fp := fpp.1
  let cs2 := fpp.2
  if ip.isEmpty && fp.isEmpty then none
  else
    let mant : ℚ := sgn * ((digitsToNat ip : ℚ) + (digitsToNat fp : ℚ) / (10 ^ fp.length))
    match cs2 with
    | [] => some mant
    | e :: r =>
      if e = 'e' ∨ e = 'E' then
        let esp : ℤ × List Char :=
          match r with
          | '+' :: r2 => (1, r2)
          | '-' :: r2 => (-1, r2)
          | r2 => (1, r2)
        let (ed, r2) := takeDigits esp.2
        if ed.isEmpty || !r2.isEmpty then none
        else some (mant * (10 : ℚ) ^ (esp.1 * (digitsToNat ed : ℤ)))
      else none

/-! ### Configuration constants (`src/app.py` CONFIG section) -/

def MOBILES : List String :=
  ["0466008129", "0466008170", "0494584269", "0415100346"]

def CACHE_TTL_SECONDS : ℚ := 20
def LIMIT_CACHE_TTL_SECONDS : ℚ := 1800
def SESSION_OK_TTL_SECONDS : ℚ := 900

def POLL_INTERVAL_SECONDS : ℕ := 2
def POLL_TIMEOUT_SECONDS : ℕ := 45

def UPSTREAM_UNREACHABLE_MSG : String := "Cannot connect to ALDI Mobile (network/DNS)."

/-! ### Error taxonomy (`_classify_request_exception`, `_http_error_code`,
`_http_error_message`) -/

/-- Model of the `requests` exception hierarchy as seen by the classifier.
`requests.exceptions.SSLError` is a subclass of `ConnectionError`, but the
source checks `SSLError` first, so the constructors are disjoint by the
branch actually taken. -/
inductive ReqExc
  | sslError (msg : String)
  | timeout (msg : String)
  | connectionError (msg : String)
  | otherRequest (msg : String)
deriving Repr, DecidableEq

def dns_markers : List String :=
  ["name resolution", "name or service not known",
   "temporary failure in name resolution", "nodename nor servname",
   "getaddrinfo", "failed to resolve"]

/-- `any(m in str(err).lower() for m in dns_markers)`. -/
def hasDnsMarker (msg : String) : Bool :=
  dns_markers.any (fun m => strContainsSub (strLower msg) m)

/-- Embedding of `_classify_request_exception` (error code, user message). -/
def _classify_request_exception : ReqExc → String × String
  | .sslError _ => ("TLS_FAIL", "Cannot establish a secure connection to ALDI Mobile (TLS).")
  | .timeout _ => ("OUTBOUND_TIMEOUT", UPSTREAM_UNREACHABLE_MSG)
  | .connectionError msg =>
      if hasDnsMarker msg then ("DNS_FAIL", UPSTREAM_UNREACHABLE_MSG)
      else ("OUTBOUND_CONNECT_FAIL", UPSTREAM_UNREACHABLE_MSG)
  | .otherRequest _ => ("OUTBOUND_REQUEST_FAIL", "ALDI Mobile request failed.")

/-- Embedding of `_http_error_code`. -/
def _http_error_code (status_code : ℕ) : String :=
  if status_code = 403 then "HTTP_403"
  else if 500 ≤ status_code ∧ status_code ≤ 599 then "HTTP_5XX"
  else "HTTP_" ++ toString status_code

/-- Embedding of `_http_error_message`. -/
def _http_error_message (status_code : ℕ) : String :=
  if status_code = 403 then "ALDI Mobile refused access (HTTP 403)."
  else if 500 ≤ status_code ∧ status_code ≤ 599 then "ALDI Mobile is unavailable (HTTP 5xx)."
  else "ALDI Mobile request failed (HTTP " ++ toString status_code ++ ")."

/-! ### Cache layer (`cache_set`, `cache_get`, `_LIMIT_CACHE`, `get_limits`) -/

/-- One per-line status cache entry, as written by `cache_set`. -/
structure CacheEntry where
  ts : ℚ
  line : String
  status : String
  error_code : Option String
  error_ts : Option String
deriving Repr, DecidableEq

/-- The per-line status cache `cache : dict[str, dict]`. -/
def CacheMap := String → Option CacheEntry

/-- Embedding of `cache_set`. -/
def cache_set (c : CacheMap) (mobile : String) (now : ℚ) (line status : String)
    (error_code error_ts : Option String) : CacheMap :=
  fun m => if m = mobile then some ⟨now, line, status, error_code, error_ts⟩ else c m

/-- Embedding of `cache_get`: returns `none` on absence, and on expiry when
`now - item.ts > CACHE_TTL_SECONDS` (note: strict `>`, so an entry exactly
`CACHE_TTL_SECONDS` old is still returned). -/
def cache_get (c : CacheMap) (mobile : String) (now : ℚ) : Option CacheEntry :=
  match c mobile with
  | none => none
  | some item => if now - item.ts > CACHE_TTL_SECONDS then none else some item

/-- The shared limit cache `_LIMIT_CACHE = {"ts": ..., "limits": {...}}`.
The `limits` dict is an insertion-ordered association list; a key mapped to
`none` models a key stored with Python `None`. -/
structure LimitCache where
  ts : ℚ
  limits : List (String × Option ℚ)
deriving Repr, DecidableEq

/-- Python dict assignment `d[k] = v` on an insertion-ordered assoc list. -/
def dictSet (l : List (String × Option ℚ)) (k : String) (v : Option ℚ) :
    List (String × Option ℚ) :=
  match l with
  | [] => [(k, v)]
  | (k', v') :: rest => if k' = k then (k, v) :: rest else (k', v') :: dictSet rest k v

/-- Python `d.get(k)` on the limits dict: absent key and stored `None`
both come back as `none` (exactly as in the source, where both read as
Python `None`). -/
def dictGet (l : List (String × Option ℚ)) (k : String) : Option ℚ :=
  match l with
  | [] => none
  | (k', v') :: rest => if k' = k then v' else dictGet rest k

/-- Embedding of the cached-read branch of `get_limits` (lines 421-423):
returns the cached mapping exactly when `force` is off, the cached dict is
truthy (non-empty) and `now - ts < LIMIT_CACHE_TTL_SECONDS` (strict `<`);
`none` models falling through to the network re-fetch. -/
def get_limits_cached (force : Bool) (lc : LimitCache) (now : ℚ) :
    Option (List (String × Option ℚ)) :=
  if force = false ∧ lc.limits ≠ [] ∧ now - lc.ts < LIMIT_CACHE_TTL_SECONDS then
    some lc.limits
  else none

/-! ### Cap-update cache effect (`submit_limit_form`, lines 580-589) -/

/-- The two caches mutated by a successful `submit_limit_form`. -/
structure AppCaches where
  lineCache : CacheMap
  limitCache : LimitCache

/-- Embedding of the tail of a successful `submit_limit_form` run (the code
after the form POST succeeds): parse the requested value with
`float(str(value).strip())` (`pyFloat?` trims), write it (or `None`) into
the shared limit cache for `mobile`, refresh the limit-cache timestamp, and
`cache.pop(mobile, None)` the per-line entry.  The source's
`isinstance(_LIMIT_CACHE.get("limits"), dict)` guard is always true: the
field is initialised to `{}` and only ever assigned dicts. -/
def submit_limit_form_success (s : AppCaches) (mobile value : String) (now : ℚ) :
    AppCaches :=
  let newLim := pyFloat? value
  { lineCache := fun m => if m = mobile then none else s.lineCache m
    limitCache := { ts := now, limits := dictSet s.limitCache.limits mobile newLim } }

/-! ### Balance extraction (`_mb_to_gb`, `_extract_balance_items`,
`build_line_for_mobile`) -/

/-- A non-`None` Python value found in a balance item's `value` field. -/
inductive PyVal
  | num (q : ℚ)
  | str (s : String)
deriving Repr, DecidableEq

/-- One entry of the balance JSON's item list.  `plan_name` is the resolved
`it.get("plan_name") or it.get("PLAN_NAME") or ""`; `value` is the resolved
`it.get("value" / "VALUE")`, with `none` modelling Python `None` (key absent
or stored null). -/
structure BalItem where
  plan_name : String
  value : Option PyVal
deriving Repr, DecidableEq

/-- Embedding of `_mb_to_gb`: `float(str(mb_str).strip()) / 1024.0`,
returning `0.0` whenever the conversion raises.  `str(None) = "None"` never
parses, a number's `str` round-trips, and a string parses iff `pyFloat?`
accepts it. -/
def _mb_to_gb : Option PyVal → ℚ
  | none => 0
  | some (.num q) => q / 1024
  | some (.str s) =>
      match pyFloat? s with
      | some q => q / 1024
      | none => 0

/-- Embedding of `_extract_balance_items`: scan the item list, remembering
the last `value` seen under a plan name containing "plan data remaining"
(resp. "data usage counter", checked with `elif`), then convert each
remembered value with `_mb_to_gb` — but only when it is not Python `None`. -/
def _extract_balance_items (items : List BalItem) : Option ℚ × Option ℚ :=
  let step := fun (acc : Option PyVal × Option PyVal) (it : BalItem) =>
    let pn := strLower (pyStrip it.plan_name)
    if strContainsSub pn "plan data remaining" then (it.value, acc.2)
    else if strContainsSub pn "data usage counter" then (acc.1, it.value)
    else acc
  let mbs := items.foldl step (none, none)
  (mbs.1.map (fun v => _mb_to_gb (some v)), mbs.2.map (fun v => _mb_to_gb (some v)))

/-- The information content of the per-line display string built by
`build_line_for_mobile` (the `{_fmt_gb ...}` rendering of these three
quantities is abstracted away). -/
structure LineDisplay where
  limit : Option ℚ
  used : Option ℚ
  remaining : Option ℚ
deriving Repr, DecidableEq

/-- Embedding of `build_line_for_mobile`: combine the shared cap with the
line's balance; when the cap is present, positive, and a usage counter was
extracted, displayed remaining is `max(lim - used, 0)`, else the
plan-reported remaining. -/
def build_line_for_mobile (mobile : String) (limits : List (String × Option ℚ))
    (items : List BalItem) : LineDisplay :=
  let pu := _extract_balance_items items
  let plan_remaining_gb := pu.1
  let used_gb := pu.2
  let lim := dictGet limits mobile
  let remaining_gb :=
    match lim, used_gb with
    | some l, some u => if l > 0 then some (max (l - u) 0) else plan_remaining_gb
    | _, _ => plan_remaining_gb
  ⟨lim, used_gb, remaining_gb⟩

/-! ### Balance fetch with one auth retry (`fetch_balance_json`) -/

/-- An HTTP response as seen by `fetch_balance_json`: status code, the
`Content-Type` header (empty when absent), body text, and the result of
`r.json()` (`none` models a parse failure; the payload is modelled by its
balance item list). -/
structure HttpResp where
  status : ℕ
  contentType : String
  text : String
  json : Option (List BalItem)
deriving Repr, DecidableEq

/-- The retry condition of `fetch_balance_json`:
`("application/json" not in ctype) or (r.text and r.text.lstrip().startswith("<"))`. -/
def needsAuthRetry (r : HttpResp) : Bool :=
  !strContainsSub (strLower r.contentType) "application/json" ||
    (!r.text.toList.isEmpty && listPrefixEq (pyLStrip r.text).toList ['<'])

inductive FetchResult
  | ok (js : List BalItem)
  | err (code : String) (msg : String)
deriving Repr, DecidableEq

/-- Outcome of a `fetch_balance_json` run: its result, whether the request
was repeated, and whether `_LAST_LOGIN_OK_TS` was cleared to force
re-authentication. -/
structure FetchOutcome where
  result : FetchResult
  retried : Bool
  authCleared : Bool
deriving Repr, DecidableEq

/-- Embedding of `fetch_balance_json` over an environment supplying the
first response `r1` and (if the retry happens) the second response `r2`;
the intervening `ensure_logged_in` is assumed to succeed (its failures are
transport/login errors outside this claim). -/
def fetch_balance_json (r1 r2 : HttpResp) : FetchOutcome :=
  if r1.status ≥ 400 then
    ⟨.err (_http_error_code r1.status) (_http_error_message r1.status), false, false⟩
  else if needsAuthRetry r1 then
    if r2.status ≥ 400 then
      ⟨.err (_http_error_code r2.status) (_http_error_message r2.status), true, true⟩
    else
      match r2.json with
      | some js => ⟨.ok js, true, true⟩
      | none => ⟨.err "BALANCE_PARSE_FAIL" "Failed to parse balance JSON.", true, true⟩
  else
    match r1.json with
    | some js => ⟨.ok js, false, false⟩
    | none => ⟨.err "BALANCE_PARSE_FAIL" "Failed to parse balance JSON.", false, false⟩

/-! ### Submit-then-poll loop (`wait_until_done`) -/

/-- `"pending" in " ".join(panel_text.split()).lower()`. -/
def panelPending (text : String) : Bool :=
  strContainsSub (strLower (normalizeWs text)) "pending"

/-- Embedding of the `wait_until_done` loop body, checked at iteration `k`.
Each fetch is modelled as instantaneous and each `time.sleep` advances the
clock by `POLL_INTERVAL_SECONDS`, so elapsed time at check `k` is
`POLL_INTERVAL_SECONDS * k`; `texts k` is the panel text fetched at check
`k`.  Returns `(done, elapsed seconds)`. -/
def wait_until_done_go (texts : ℕ → String) (k : ℕ) : Bool × ℕ :=
  if panelPending (texts k) = false then (true, POLL_INTERVAL_SECONDS * k)
  else if POLL_TIMEOUT_SECONDS < POLL_INTERVAL_SECONDS * k then
    (false, POLL_INTERVAL_SECONDS * k)
  else wait_until_done_go texts (k + 1)
termination_by POLL_TIMEOUT_SECONDS + POLL_INTERVAL_SECONDS - POLL_INTERVAL_SECONDS * k
decreasing_by
  unfold POLL_TIMEOUT_SECONDS POLL_INTERVAL_SECONDS at *
  omega

/-- Embedding of `wait_until_done`. -/
def wait_until_done (texts : ℕ → String) : Bool × ℕ :=
  wait_until_done_go texts 0

/-! ### Auth state machine (`looks_like_login_page`, `ensure_logged_in`) -/

/-- A fetched page as seen by `ensure_logged_in`: HTTP status, body text,
and the CSRF token that `get_csrf_from_login_page` (BeautifulSoup) would
extract from that body. -/
structure Page where
  status : ℕ
  text : String
  csrf : Option String
deriving Repr, DecidableEq

/-- The network requests `ensure_logged_in` can issue, in order. -/
inductive NetCall
  | getOverview
  | getLoginPage
  | postLoginCheck
deriving Repr, DecidableEq

/-- Result of an `ensure_logged_in` run: the new `_LAST_LOGIN_OK_TS` on
success, or the `UpstreamError.error_code` raised. -/
inductive AuthOutcome
  | ok (newLastLoginOk : ℚ)
  | err (code : String)
deriving Repr, DecidableEq

/-- The environment of one `ensure_logged_in` run: credentials, the clock,
the cached auth timestamp, and the responses the site would serve to each
successive request. -/
structure AuthEnv where
  username : String
  password : String
  now : ℚ
  lastLoginOk : ℚ
  overview1 : Page
  loginPage1 : Page
  loginPage2 : Page
  loginPost : Page
  overview2 : Page
deriving Repr, DecidableEq

/-- Embedding of `looks_like_login_page`. -/
def looks_like_login_page (html : String) : Bool :=
  let low := strLower html
  strContainsSub low "login_password" ||
    (strContainsSub low "login_check" && strContainsSub low "csrf")

/-- The tail of `ensure_logged_in` once a CSRF token has been found:
credential check, login POST, and verification re-fetch of the overview.
Returns the full request trace and the outcome. -/
def ensure_logged_in_submit (e : AuthEnv) (trace : List NetCall) :
    List NetCall × AuthOutcome :=
  if e.username = "" ∨ e.password = "" then (trace, .err "MISSING_CREDS")
  else
    let t1 := trace ++ [NetCall.postLoginCheck]
    if e.loginPost.status ≥ 400 then (t1, .err (_http_error_code e.loginPost.status))
    else
      let t2 := t1 ++ [NetCall.getOverview]
      if e.overview2.status ≥ 400 then (t2, .err (_http_error_code e.overview2.status))
      else if looks_like_login_page e.overview2.text then (t2, .err "LOGIN_FAILED")
      else (t2, .ok e.now)

/-- Embedding of `ensure_logged_in`: TTL short-circuit, overview probe,
login-page fetch with one CSRF re-fetch, then `ensure_logged_in_submit`.
The `progress_set` side effects touch only the progress store and are
omitted here. -/
def ensure_logged_in (e : AuthEnv) : List NetCall × AuthOutcome :=
  if e.now - e.lastLoginOk < SESSION_OK_TTL_SECONDS then ([], .ok e.lastLoginOk)
  else
    let t1 := [NetCall.getOverview]
    if e.overview1.status ≥ 400 then (t1, .err (_http_error_code e.overview1.status))
    else if !looks_like_login_page e.overview1.text then (t1, .ok e.now)
    else
      let t2 := t1 ++ [NetCall.getLoginPage]
      if e.loginPage1.status ≥ 400 then (t2, .err (_http_error_code e.loginPage1.status))
      else
        match e.loginPage1.csrf with
        | some _ => ensure_logged_in_submit e t2
        | none =>
          let t3 := t2 ++ [NetCall.getLoginPage]
          if e.loginPage2.status ≥ 400 then (t3, .err (_http_error_code e.loginPage2.status))
          else
            match e.loginPage2.csrf with
            | some _ => ensure_logged_in_submit e t3
            | none => (t3, .err "LOGIN_CSRF_MISSING")

/-! ### Progress store (`progress_set`, `progress_done`) -/

/-- One progress record, as created by `progress_init`. -/
structure ProgRecord where
  msg : String
  seq : ℕ
  done : Bool
  ok : Bool
  result : Option String
  ts : ℚ
deriving Repr, DecidableEq

/-- The progress store: operation id → record. -/
def ProgStore := String → Option ProgRecord

/-- Embedding of `progress_set`: no-op on a falsy id or an unknown id;
otherwise overwrite `msg`, increment `seq`, refresh `ts`. -/
def progress_set (s : ProgStore) (op_id msg : String) (now : ℚ) : ProgStore :=
  if op_id = "" then s
  else fun i =>
    if i = op_id then
      match s op_id with
      | none => none
      | some st => some { st with msg := msg, seq := st.seq + 1, ts := now }
    else s i

/-- Embedding of `progress_done`: no-op on a falsy id or an unknown id;
otherwise set `done := true` and overwrite `ok`, `result`, `ts`. -/
def progress_done (s : ProgStore) (op_id : String) (okv : Bool)
    (result : Option String) (now : ℚ) : ProgStore :=
  if op_id = "" then s
  else fun i =>
    if i = op_id then
      match s op_id with
      | none => none
      | some st => some { st with done := true, ok := okv, result := result, ts := now }
    else s i

/-- An operation on the progress store (`fin` is a `progress_done` call). -/
inductive ProgOp
  | set (op_id msg : String) (t : ℚ)
  | fin (op_id : String) (okv : Bool) (result : Option String) (t : ℚ)
deriving Repr, DecidableEq

def progApply (s : ProgStore) : ProgOp → ProgStore
  | .set i m t => progress_set s i m t
  | .fin i o r t => progress_done s i o r t

/-- Run a sequence of store operations. -/
def progRun (s : ProgStore) (ops : List ProgOp) : ProgStore :=
  ops.foldl progApply s

/-! ### Scheduler "next change" (`get_next_scheduled_change`,
`format_gb_value`) -/

/-- One (time, value) slot of the weekly matrix. -/
structure Slot where
  time : String
  value : String
deriving Repr, DecidableEq

/-- A line's scheduling configuration: `enabled` flag and its `week` dict
(insertion-ordered day-key → slot-list). -/
structure MobileCfg where
  enabled : Bool
  week : List (String × List Slot)
deriving Repr, DecidableEq

/-- The current instant, as `datetime.now(tz)` exposes it to the scan:
absolute wall-clock minutes, `weekday()` (Monday = 0), and minutes since
local midnight.  Days are uniform 1440-minute spans (DST transitions are
not modelled). -/
structure NowInfo where
  absMinutes : ℤ
  weekday : ℕ
  minuteOfDay : ℕ
deriving Repr, DecidableEq

/-- Embedding of `WEEKDAY_INDEX`, with `none` for an unknown day key. -/
def WEEKDAY_INDEX : String → Option ℕ
  | "mon" => some 0
  | "tue" => some 1
  | "wed" => some 2
  | "thu" => some 3
  | "fri" => some 4
  | "sat" => some 5
  | "sun" => some 6
  | _ => none

def splitAtColon : List Char → Option (List Char × List Char)
  | [] => none
  | c :: cs =>
    if c = ':' then some ([], cs)
    else
      match splitAtColon cs with
      | none => none
      | some (a, b) => some (c :: a, b)

/-- Model of `t.split(":", 1)`: the part before the first colon and the
rest. -/
def splitTimeField (t : String) : String × String :=
  match splitAtColon t.toList with
  | none => (t, "")
  | some (a, b) => (String.mk a, String.mk b)

/-- What the scan does with one slot: skip it, raise `ValueError` in the
`datetime` constructor (`bad`), or produce a candidate occurrence. -/
inductive SlotScan
  | skip
  | bad
  | cand (dt : ℤ) (v : String)
deriving Repr, DecidableEq

/-- Embedding of one iteration of the slot loop in
`get_next_scheduled_change`: trim the fields, skip inert or unparsable
slots, raise (`bad`) when the digit fields are not a valid time of day,
otherwise build the occurrence at `(dayIdx - weekday) % 7` days ahead and
keep it only if strictly after `now` and within 7 days. -/
def slotScan (now : NowInfo) (dayIdx : ℕ) (slot : Slot) : SlotScan :=
  let t := pyStrip slot.time
  let v := pyStrip slot.value
  if t = "" || v = "" || !strContainsSub t ":" then .skip
  else
    let hm := splitTimeField t
    if !(pyIsDigit hm.1 && pyIsDigit hm.2) then .skip
    else
      let hh := digitsToNat hm.1.toList
      let mm := digitsToNat hm.2.toList
      if 24 ≤ hh || 60 ≤ mm then .bad
      else
        let offset : ℕ := (dayIdx + 7 - now.weekday) % 7
        let dt : ℤ := now.absMinutes - now.minuteOfDay + offset * 1440 + (hh * 60 + mm)
        if dt ≤ now.absMinutes || now.absMinutes + 7 * 1440 < dt then .skip
        else .cand dt v

/-- Scan every slot of the week matrix in iteration order (unknown day keys
are skipped entirely, as `WEEKDAY_INDEX.get` returns `None`). -/
def scanWeek (mcfg : MobileCfg) (now : NowInfo) : List SlotScan :=
  (mcfg.week.map (fun p =>
    match WEEKDAY_INDEX p.1 with
    | none => []
    | some idx => p.2.map (slotScan now idx))).flatten

def candOf : SlotScan → Option (ℤ × String)
  | .cand dt v => some (dt, v)
  | _ => none

/-- The strictly-future in-window occurrences of the populated, validly
timed slots. -/
def scheduleCandidates (mcfg : MobileCfg) (now : NowInfo) : List (ℤ × String) :=
  (scanWeek mcfg now).filterMap candOf

/-- One step of the `best` accumulator: keep the earliest occurrence, the
first seen winning ties (`if best is None or dt < best["dt"]`). -/
def bestStep (best : Option (ℤ × String)) (c : ℤ × String) : Option (ℤ × String) :=
  match best with
  | none => some c
  | some b => if c.1 < b.1 then some c else some b

/-- The `best` value after scanning all candidates in order. -/
def selectBest (l : List (ℤ × String)) : Option (ℤ × String) :=
  l.foldl bestStep none

/-- Render a rational with two decimals (model of `f"{x:.2f}"`; Python's
binary-float half-even rounding is modelled by `round` on the exact
rational). -/
def fmt2dp (q : ℚ) : String :=
  let n : ℤ := round (q * 100)
  let sgn := if n < 0 then "-" else ""
  let a := n.natAbs
  sgn ++ toString (a / 100) ++ "." ++ (if a % 100 < 10 then "0" else "") ++ toString (a % 100)

/-- Embedding of `format_gb_value`. -/
def format_gb_value (value : String) : String :=
  match pyFloat? value with
  | some q => fmt2dp q
  | none => pyStrip value

/-- The successful return value of `get_next_scheduled_change`: the chosen
timestamp (its `strftime` label is abstracted to the timestamp itself) and
the formatted GB value. -/
structure NextChange where
  dt : ℤ
  gb : String
deriving Repr, DecidableEq

/-- Embedding of `get_next_scheduled_change`: `None` for a disabled line;
a raised `ValueError` (modelled as `.error ()`) when any populated slot
carries digit fields that are not a valid time of day; otherwise the
earliest strictly-future candidate, if any. -/
def get_next_scheduled_change (mcfg : MobileCfg) (now : NowInfo) :
    Except Unit (Option NextChange) :=
  if !mcfg.enabled then .ok none
  else if (scanWeek mcfg now).any (fun sc => sc == SlotScan.bad) then .error ()
  else .ok ((selectBest (scheduleCandidates mcfg now)).map
    (fun b => ⟨b.1, format_gb_value b.2⟩))

/-! ### Concrete inputs used by counterexamples and witnesses -/

/-- A per-line cache holding one entry written at time 0. -/
def cexCache : CacheMap :=
  fun m => if m = "0466008129" then some ⟨0, "Limit: 20.00GB", "Mon 01 Jan 10:00", none, none⟩ else none

/-- An `ensure_logged_in` environment with a stale session, an overview
that looks like a login page, a login page carrying a CSRF token, and an
empty username. -/
def cexAuthEnv : AuthEnv where
  username := ""
  password := "secret"
  now := 10000
  lastLoginOk := 0
  overview1 := ⟨200, "<input name=login_password>", none⟩
  loginPage1 := ⟨200, "login page", some "tok"⟩
  loginPage2 := ⟨200, "login page", some "tok"⟩
  loginPost := ⟨200, "", none⟩
  overview2 := ⟨200, "welcome", none⟩

/-- A schedule with one populated slot whose minute field is 60. -/
def cexBadSlotCfg : MobileCfg := ⟨true, [("mon", [⟨"07:60", "5"⟩])]⟩

/-- Monday 10:00 local, at absolute minute 14400000. -/
def cexNow : NowInfo := ⟨14400000, 0, 600⟩

/-- A well-formed schedule used by the C7 witness: slots on Monday noon and
Wednesday 07:00, plus an inert slot. -/
def witSchedCfg : MobileCfg :=
  ⟨true, [("mon", [⟨"12:00", "20"⟩, ⟨"", ""⟩]), ("wed", [⟨"07:00", "5"⟩])]⟩

/-- A progress store holding one not-yet-done record under id "op". -/
def cexProgStore : ProgStore :=
  fun i => if i = "op" then some ⟨"Starting...", 1, false, true, none, 0⟩ else none

/-! ### Helper lemmas -/

theorem dictGet_dictSet_self (l : List (String × Option ℚ)) (k : String) (v : Option ℚ) :
    dictGet (dictSet l k v) k = v := by
  induction l with
  | nil => simp [dictSet, dictGet]
  | cons p rest ih =>
    obtain ⟨k', v'⟩ := p
    by_cases h : k' = k
    · simp [dictSet, dictGet, h]
    · simp [dictSet, dictGet, h, ih]

theorem dictGet_dictSet_ne (l : List (String × Option ℚ)) (k k' : String) (v : Option ℚ)
    (h : k' ≠ k) : dictGet (dictSet l k v) k' = dictGet l k' := by
  induction l with
  | nil => simp [dictSet, dictGet, Ne.symm h]
  | cons p rest ih =>
    obtain ⟨k'', v''⟩ := p
    by_cases h2 : k'' = k
    · subst h2
      simp [dictSet, dictGet, Ne.symm h]
    · simp only [dictSet, if_neg h2]
      by_cases h3 : k'' = k'
      · simp [dictGet, h3]
      · simp [dictGet, h3, ih]

/-! ### Claim theorems -/

/-- Claim C1: a successful `submit_limit_form(m, v)` run removes `m`'s
per-line cache entry (so the immediately following cached read for `m` is a
miss) and optimistically updates the shared limit cache: `m`'s entry
becomes the parsed float of `v` when `v` parses, `None` otherwise, the
limit-cache timestamp is refreshed, and every other mobile's entries in
both caches are unchanged. -/
theorem submit_limit_form_cache_spec (s : AppCaches) (m v : String) (now t : ℚ)
    (_hm : m ∈ MOBILES) :
    ((submit_limit_form_success s m v now).lineCache m = none) ∧
    (cache_get (submit_limit_form_success s m v now).lineCache m t = none) ∧
    (∀ q, pyFloat? v = some q →
      dictGet (submit_limit_form_success s m v now).limitCache.limits m = some q) ∧
    (pyFloat? v = none →
      dictGet (submit_limit_form_success s m v now).limitCache.limits m = none) ∧
    ((submit_limit_form_success s m v now).limitCache.ts = now) ∧
    (∀ m', m' ≠ m →
      dictGet (submit_limit_form_success s m v now).limitCache.limits m' =
        dictGet s.limitCache.limits m' ∧
      (submit_limit_form_success s m v now).lineCache m' = s.lineCache m') := by
  refine ⟨?_, ?_, ?_, ?_, ?_, ?_⟩
  · simp [submit_limit_form_success]
  · simp [submit_limit_form_success, cache_get]
  · intro q hq
    simp [submit_limit_form_success, dictGet_dictSet_self, hq]
  · intro hq
    simp [submit_limit_form_success, dictGet_dictSet_self, hq]
  · rfl
  · intro m' hm'
    exact ⟨by simp [submit_limit_form_success, dictGet_dictSet_ne _ _ _ _ hm'],
      by simp [submit_limit_form_success, hm']⟩

/-- Witness for C1: the cache effect of `submit_limit_form("0466008129", "20")`
at time 100, evaluated concretely. -/
theorem submit_limit_form_cache_spec_witness :
    (cache_get (submit_limit_form_success ⟨cexCache, ⟨0, []⟩⟩ "0466008129" "20" 100).lineCache
      "0466008129" 100 = none) ∧
    (dictGet (submit_limit_form_success ⟨cexCache, ⟨0, []⟩⟩ "0466008129" "20" 100).limitCache.limits
      "0466008129" = some 20) := by
  have h := submit_limit_form_cache_spec ⟨cexCache, ⟨0, []⟩⟩ "0466008129" "20" 100 100
    (by simp [MOBILES])
  exact ⟨h.2.1, h.2.2.1 20 (by simp [pyFloat?, listTrim, takeDigits, digitsToNat])⟩

/-- Counterexample to C2 as stated: an entry written at time 0 and read at
time 20 (= `CACHE_TTL_SECONDS`) is still returned by `cache_get`, although
`t - w < TTL` fails, so the per-line cache's expiry comparison is `≤`, not
the claimed strict `<`. -/
theorem cache_ttl_claim_cex :
    cache_get cexCache "0466008129" 20 =
      some ⟨0, "Limit: 20.00GB", "Mon 01 Jan 10:00", none, none⟩ ∧
    ¬((20 : ℚ) - 0 < CACHE_TTL_SECONDS) := by
  constructor
  · simp [cache_get, cexCache, CACHE_TTL_SECONDS]
  · norm_num [CACHE_TTL_SECONDS]

/-- Claim C2 (amended): `cache_get` returns the stored entry iff
`t − writeTime ≤ CACHE_TTL_SECONDS` (misses on absence and past-TTL
expiry), while the shared limit cache serves its cached mapping iff the
mapping is non-empty and `t − writeTime < LIMIT_CACHE_TTL_SECONDS`
(strict). -/
theorem cache_ttl_semantics (c : CacheMap) (m : String) (t : ℚ) (lc : LimitCache) (now : ℚ) :
    (∀ e, c m = some e → (cache_get c m t = some e ↔ t - e.ts ≤ CACHE_TTL_SECONDS)) ∧
    (c m = none → cache_get c m t = none) ∧
    (get_limits_cached false lc now = some lc.limits ↔
      lc.limits ≠ [] ∧ now - lc.ts < LIMIT_CACHE_TTL_SECONDS) ∧
    (∀ r, get_limits_cached false lc now = some r → r = lc.limits) := by
  refine ⟨?_, ?_, ?_, ?_⟩
  · intro e he
    have hg : cache_get c m t = if CACHE_TTL_SECONDS < t - e.ts then none else some e := by
      simp [cache_get, he, gt_iff_lt]
    by_cases hc : CACHE_TTL_SECONDS < t - e.ts
    · simp [hg, hc, not_le.mpr hc]
    · simp [hg, hc, not_lt.mp hc]
  · intro he
    simp [cache_get, he]
  · by_cases hcond : lc.limits ≠ [] ∧ now - lc.ts < LIMIT_CACHE_TTL_SECONDS
    · simp [get_limits_cached, hcond]
    · simp only [not_and_or] at hcond
      rcases hcond with h1 | h2
      · simp only [ne_eq, not_not] at h1
        simp [get_limits_cached, h1]
      · simp [get_limits_cached, h2]
  · intro r hr
    by_cases hcond : lc.limits ≠ [] ∧ now - lc.ts < LIMIT_CACHE_TTL_SECONDS
    · simp [get_limits_cached, hcond] at hr
      exact hr.symm
    · simp only [not_and_or] at hcond
      rcases hcond with h1 | h2
      · simp only [ne_eq, not_not] at h1
        simp [get_limits_cached, h1] at hr
      · simp [get_limits_cached, h2] at hr

/-- Witness for C2 (amended): the entry written at 0 is served at 20; a
non-empty limit mapping written at 0 is served at 1799. -/
theorem cache_ttl_semantics_witness :
    (cache_get cexCache "0466008129" 20 =
      some ⟨0, "Limit: 20.00GB", "Mon 01 Jan 10:00", none, none⟩ ↔
      (20 : ℚ) - 0 ≤ CACHE_TTL_SECONDS) ∧
    (get_limits_cached false ⟨0, [("0466008129", some 20)]⟩ 1799 =
      some [("0466008129", some 20)] ↔
      ([("0466008129", some 20)] : List (String × Option ℚ)) ≠ [] ∧
      (1799 : ℚ) - 0 < LIMIT_CACHE_TTL_SECONDS) := by
  have h := cache_ttl_semantics cexCache "0466008129" 20 ⟨0, [("0466008129", some 20)]⟩ 1799
  exact ⟨h.1 _ (by simp [cexCache]), h.2.2.1⟩

/-- Claim C3: `build_line_for_mobile` displays
`remaining = max(cap − used, 0)` exactly when the limits mapping gives the
mobile a present cap `> 0` and the balance items yield a usage-counter
value; in every other case (cap absent, cap not positive, or usage counter
absent) the displayed remaining is the plan-reported remaining (MB→GB),
which may itself be absent. -/
theorem build_line_remaining_spec (m : String) (limits : List (String × Option ℚ))
    (items : List BalItem) :
    ((build_line_for_mobile m limits items).limit = dictGet limits m) ∧
    ((build_line_for_mobile m limits items).used = (_extract_balance_items items).2) ∧
    (∀ l u, dictGet limits m = some l → 0 < l → (_extract_balance_items items).2 = some u →
      (build_line_for_mobile m limits items).remaining = some (max (l - u) 0)) ∧
    ((dictGet limits m = none ∨ (∃ l, dictGet limits m = some l ∧ l ≤ 0) ∨
        (_extract_balance_items items).2 = none) →
      (build_line_for_mobile m limits items).remaining = (_extract_balance_items items).1) := by
  refine ⟨rfl, rfl, ?_, ?_⟩
  · intro l u hl hpos hu
    simp [build_line_for_mobile, hl, hu, hpos]
  · rintro (hl | ⟨l, hl, hle⟩ | hu)
    · simp [build_line_for_mobile, hl]
    · cases hu : (_extract_balance_items items).2 with
      | none => simp [build_line_for_mobile, hl, hu]
      | some u => simp [build_line_for_mobile, hl, hu, not_lt.mpr hle]
    · cases hl : dictGet limits m with
      | none => simp [build_line_for_mobile, hl, hu]
      | some l => simp [build_line_for_mobile, hl, hu]

/-- Witness for C3: with cap 10 GB and 2 GB used, displayed remaining is
8 GB; with the cap absent, the plan-reported value is displayed. -/
theorem build_line_remaining_spec_witness :
    (build_line_for_mobile "a" [("a", some 10)]
      [⟨"Data Usage Counter", some (.num 2048)⟩]).remaining = some (max ((10 : ℚ) - 2) 0) ∧
    (build_line_for_mobile "b" []
      [⟨"Plan Data Remaining", some (.num 1024)⟩]).remaining =
      (_extract_balance_items [⟨"Plan Data Remaining", some (.num 1024)⟩]).1 := by
  constructor
  · exact (build_line_remaining_spec "a" [("a", some 10)] _).2.2.1 10 2 (by simp [dictGet])
      (by norm_num)
      (by simp [_extract_balance_items, _mb_to_gb, strLower, strContainsSub, listHasSub,
            listPrefixEq, pyStrip, listTrim]
          norm_num)
  · exact (build_line_remaining_spec "b" [] _).2.2.2 (Or.inl (by simp [dictGet]))

/-- Claim C10: `_mb_to_gb` is total and silently zeroing — `None`, numbers
and arbitrary strings all yield a rational without raising: the parsed
value divided by 1024 when parsing succeeds, `0.0` otherwise; consequently
`_extract_balance_items` (a total function here, mirroring that the Python
never raises on malformed `value` fields) reports a present-but-malformed
megabyte value as `0.0` GB rather than as absent. -/
theorem mb_to_gb_total_spec :
    (_mb_to_gb none = 0) ∧
    (∀ x, _mb_to_gb (some (.num x)) = x / 1024) ∧
    (∀ s q, pyFloat? s = some q → _mb_to_gb (some (.str s)) = q / 1024) ∧
    (∀ s, pyFloat? s = none → _mb_to_gb (some (.str s)) = 0) ∧
    (∀ s items, pyFloat? s = none →
      (_extract_balance_items (items ++ [⟨"Data Usage Counter", some (.str s)⟩])).2 = some 0) := by
  refine ⟨rfl, fun x => rfl, ?_, ?_, ?_⟩
  · intro s q hq
    simp [_mb_to_gb, hq]
  · intro s hq
    simp [_mb_to_gb, hq]
  · intro s items hq
    have h1 : strContainsSub (strLower (pyStrip "Data Usage Counter")) "plan data remaining"
        = false := by decide
    have h2 : strContainsSub (strLower (pyStrip "Data Usage Counter")) "data usage counter"
        = true := by decide
    simp only [_extract_balance_items, List.foldl_append, List.foldl_cons, List.foldl_nil]
    simp [h1, h2, _mb_to_gb, hq]

/-- Witness for C10: `"2048"` converts to 2 GB, `"garbage"` to 0 GB, and a
usage-counter item holding `"garbage"` is reported as 0 GB used. -/
theorem mb_to_gb_total_spec_witness :
    _mb_to_gb (some (.str "2048")) = 2 ∧
    _mb_to_gb (some (.str "garbage")) = 0 ∧
    (_extract_balance_items ([] ++ [⟨"Data Usage Counter", some (.str "garbage")⟩])).2
      = some 0 := by
  have h := mb_to_gb_total_spec
  refine ⟨?_, ?_, ?_⟩
  · rw [h.2.2.1 "2048" 2048 (by simp [pyFloat?, listTrim, takeDigits, digitsToNat])]
    norm_num
  · exact h.2.2.2.1 "garbage" (by simp [pyFloat?, listTrim, takeDigits, digitsToNat])
  · exact h.2.2.2.2 "garbage" [] (by simp [pyFloat?, listTrim, takeDigits, digitsToNat])

theorem wud_go_step (texts : ℕ → String) (k : ℕ) (h : panelPending (texts k) = true)
    (hk : POLL_INTERVAL_SECONDS * k ≤ POLL_TIMEOUT_SECONDS) :
    wait_until_done_go texts k = wait_until_done_go texts (k + 1) := by
  rw [wait_until_done_go]
  simp [h, Nat.not_lt.mpr hk]

theorem wud_go_timeout (texts : ℕ → String) (k : ℕ) (h : panelPending (texts k) = true)
    (hk : POLL_TIMEOUT_SECONDS < POLL_INTERVAL_SECONDS * k) :
    wait_until_done_go texts k = (false, POLL_INTERVAL_SECONDS * k) := by
  rw [wait_until_done_go]
  simp [h, hk]

/-- Claim C4: `wait_until_done` always terminates (it is a total function
by well-founded recursion on the remaining budget): a first check that is
not "pending" returns `(done = true, elapsed)` immediately (elapsed 0 in
the instantaneous-fetch model); an always-"pending" panel returns
`(done = false, 46)`, with `46 ≥ POLL_TIMEOUT_SECONDS` and within one
`POLL_INTERVAL_SECONDS` of the timeout; `done = false` is a returned
value, not a raised error. -/
theorem wait_until_done_spec (texts : ℕ → String) :
    (panelPending (texts 0) = false → wait_until_done texts = (true, 0)) ∧
    ((∀ k, panelPending (texts k) = true) →
      wait_until_done texts = (false, 46) ∧
      POLL_TIMEOUT_SECONDS ≤ 46 ∧ 46 ≤ POLL_TIMEOUT_SECONDS + POLL_INTERVAL_SECONDS) := by
  constructor
  · intro h
    rw [wait_until_done, wait_until_done_go]
    simp [h]
  · intro h
    refine ⟨?_, by norm_num [POLL_TIMEOUT_SECONDS],
      by norm_num [POLL_TIMEOUT_SECONDS, POLL_INTERVAL_SECONDS]⟩
    rw [wait_until_done]
    iterate 23 rw [wud_go_step _ _ (h _)
      (by norm_num [POLL_INTERVAL_SECONDS, POLL_TIMEOUT_SECONDS])]
    rw [wud_go_timeout _ _ (h _)
      (by norm_num [POLL_INTERVAL_SECONDS, POLL_TIMEOUT_SECONDS])]
    norm_num [POLL_INTERVAL_SECONDS]

/-- Witness for C4: a panel that never says "pending" and one that always
does. -/
theorem wait_until_done_spec_witness :
    wait_until_done (fun _ => "No change queued") = (true, 0) ∧
    wait_until_done (fun _ => "Update Pending") = (false, 46) := by
  constructor
  · exact (wait_until_done_spec _).1 (by decide)
  · exact ((wait_until_done_spec _).2 (fun k => by decide)).1

/-- Claim C5: the error classifiers are total over the closed code set:
a connection error whose message contains some DNS-failure marker yields
`DNS_FAIL` with the shared "cannot connect" message; an SSL error yields
`TLS_FAIL`; a timeout yields `OUTBOUND_TIMEOUT`; any other connection
error yields `OUTBOUND_CONNECT_FAIL`; any other request exception yields
`OUTBOUND_REQUEST_FAIL`; 403 yields `HTTP_403`, every 500–599 status
yields `HTTP_5XX` (so 502 does), and any other status yields
`HTTP_<code>`, each paired with its single fixed user-safe message. -/
theorem error_taxonomy_spec (msg : String) (s : ℕ) :
    ((∃ mk ∈ dns_markers, strContainsSub (strLower msg) mk = true) →
      _classify_request_exception (.connectionError msg) =
        ("DNS_FAIL", UPSTREAM_UNREACHABLE_MSG)) ∧
    ((∀ mk ∈ dns_markers, strContainsSub (strLower msg) mk = false) →
      _classify_request_exception (.connectionError msg) =
        ("OUTBOUND_CONNECT_FAIL", UPSTREAM_UNREACHABLE_MSG)) ∧
    (_classify_request_exception (.sslError msg) =
      ("TLS_FAIL", "Cannot establish a secure connection to ALDI Mobile (TLS).")) ∧
    (_classify_request_exception (.timeout msg) =
      ("OUTBOUND_TIMEOUT", UPSTREAM_UNREACHABLE_MSG)) ∧
    (_classify_request_exception (.otherRequest msg) =
      ("OUTBOUND_REQUEST_FAIL", "ALDI Mobile request failed.")) ∧
    (_http_error_code 403 = "HTTP_403" ∧
      _http_error_message 403 = "ALDI Mobile refused access (HTTP 403).") ∧
    (500 ≤ s → s ≤ 599 → _http_error_code s = "HTTP_5XX" ∧
      _http_error_message s = "ALDI Mobile is unavailable (HTTP 5xx).") ∧
    (_http_error_code 502 = "HTTP_5XX") ∧
    (400 ≤ s → s ≠ 403 → ¬(500 ≤ s ∧ s ≤ 599) →
      _http_error_code s = "HTTP_" ++ toString s ∧
      _http_error_message s = "ALDI Mobile request failed (HTTP " ++ toString s ++ ").") := by
  refine ⟨?_, ?_, rfl, rfl, rfl, ⟨rfl, rfl⟩, ?_, by decide, ?_⟩
  · rintro ⟨mk, hmem, hsub⟩
    have hd : hasDnsMarker msg = true := by
      rw [hasDnsMarker, List.any_eq_true]
      exact ⟨mk, hmem, hsub⟩
    simp [_classify_request_exception, hd]
  · intro hnone
    have hd : hasDnsMarker msg = false := by
      rw [hasDnsMarker, List.any_eq_false]
      intro mk hmk
      simp [hnone mk hmk]
    simp [_classify_request_exception, hd]
  · intro h1 h2
    rw [_http_error_code, _http_error_message]
    rw [if_neg (by omega), if_pos ⟨h1, h2⟩, if_neg (by omega), if_pos ⟨h1, h2⟩]
    exact ⟨rfl, rfl⟩
  · intro h1 h2 h3
    rw [_http_error_code, _http_error_message]
    rw [if_neg h2, if_neg h3, if_neg h2, if_neg h3]
    exact ⟨rfl, rfl⟩

/-- Witness for C5: a getaddrinfo connection failure classifies as
`DNS_FAIL`; 502 maps to `HTTP_5XX`; 404 maps to `HTTP_404`. -/
theorem error_taxonomy_spec_witness :
    _classify_request_exception (.connectionError "getaddrinfo failed") =
      ("DNS_FAIL", UPSTREAM_UNREACHABLE_MSG) ∧
    _http_error_code 502 = "HTTP_5XX" ∧
    _http_error_code 404 = "HTTP_" ++ toString 404 := by
  have h := error_taxonomy_spec "getaddrinfo failed" 404
  have h5 := error_taxonomy_spec "x" 502
  exact ⟨h.1 ⟨"getaddrinfo", by decide, by decide⟩,
    (h5.2.2.2.2.2.2.1 (by norm_num) (by norm_num)).1,
    (h.2.2.2.2.2.2.2.2 (by norm_num) (by norm_num) (by omega)).1⟩

theorem needsAuthRetry_iff (r : HttpResp) :
    needsAuthRetry r = true ↔
      (strContainsSub (strLower r.contentType) "application/json" = false ∨
        (r.text.toList ≠ [] ∧ listPrefixEq (pyLStrip r.text).toList ['<'] = true)) := by
  simp [needsAuthRetry, List.isEmpty_iff]

/-- Claim C8: `fetch_balance_json` retries exactly once, precisely when the
first response's Content-Type does not contain "application/json" or its
body looks like HTML (non-empty and starting with `<` after lstrip), in
which case it also clears the cached authenticated timestamp; and it
raises `BALANCE_PARSE_FAIL` iff the response in force after the optional
retry fails to parse as JSON. -/
theorem fetch_balance_json_spec (r1 r2 : HttpResp)
    (h1 : r1.status < 400) (h2 : r2.status < 400) :
    ((fetch_balance_json r1 r2).retried = true ↔
      (strContainsSub (strLower r1.contentType) "application/json" = false ∨
        (r1.text.toList ≠ [] ∧ listPrefixEq (pyLStrip r1.text).toList ['<'] = true))) ∧
    ((fetch_balance_json r1 r2).authCleared = (fetch_balance_json r1 r2).retried) ∧
    ((fetch_balance_json r1 r2).result =
        .err "BALANCE_PARSE_FAIL" "Failed to parse balance JSON." ↔
      (if needsAuthRetry r1 then r2 else r1).json = none) := by
  have h1' : ¬(r1.status ≥ 400) := by omega
  have h2' : ¬(r2.status ≥ 400) := by omega
  rw [← needsAuthRetry_iff]
  cases hr : needsAuthRetry r1 with
  | true =>
    cases hj : r2.json with
    | none => refine ⟨?_, ?_, ?_⟩ <;> simp [fetch_balance_json, h1', h2', hr, hj]
    | some js => refine ⟨?_, ?_, ?_⟩ <;> simp [fetch_balance_json, h1', h2', hr, hj]
  | false =>
    cases hj : r1.json with
    | none => refine ⟨?_, ?_, ?_⟩ <;> simp [fetch_balance_json, h1', h2', hr, hj]
    | some js => refine ⟨?_, ?_, ?_⟩ <;> simp [fetch_balance_json, h1', h2', hr, hj]

/-- Witness for C8: an HTML login redirect triggers exactly one retry with
the auth timestamp cleared, and an unparsable second body raises
`BALANCE_PARSE_FAIL`. -/
theorem fetch_balance_json_spec_witness :
    ((fetch_balance_json ⟨200, "text/html", "<html>", none⟩
        ⟨200, "application/json", "nonsense", none⟩).retried = true) ∧
    ((fetch_balance_json ⟨200, "text/html", "<html>", none⟩
        ⟨200, "application/json", "nonsense", none⟩).result =
      .err "BALANCE_PARSE_FAIL" "Failed to parse balance JSON.") := by
  have h := fetch_balance_json_spec ⟨200, "text/html", "<html>", none⟩
    ⟨200, "application/json", "nonsense", none⟩ (by norm_num) (by norm_num)
  exact ⟨h.1.mpr (Or.inl (by decide)), h.2.2.mpr (by decide)⟩

/-- Counterexample to C9 as stated: after `progress_done` has set
`done = true` for id "op", a subsequent `progress_set` still mutates the
record (its `msg`, `seq` and `ts` change), so `done` does not freeze the
record's fields. -/
theorem progress_done_terminal_cex :
    ((progress_done cexProgStore "op" true none 5) "op").map (fun r => r.done) = some true ∧
    progress_set (progress_done cexProgStore "op" true none 5) "op" "late" 6 "op" ≠
      (progress_done cexProgStore "op" true none 5) "op" := by
  constructor
  · simp [progress_done, cexProgStore]
  · simp [progress_set, progress_done, cexProgStore]

/-- Claim C9 (amended): the store operations do not enforce full record
immutability after `done` (a later `progress_set`/`progress_done` still
rewrites `msg`/`seq`/`ts` resp. `ok`/`result`/`ts`), but the `done` flag
itself is terminal: once a record has `done = true`, it still exists and
has `done = true` after any further sequence of `progress_set` /
`progress_done` operations. -/
theorem progress_done_flag_terminal (oid : String) :
    ∀ (ops : List ProgOp) (s0 : ProgStore) (r : ProgRecord),
      s0 oid = some r → r.done = true →
      ∃ r', progRun s0 ops oid = some r' ∧ r'.done = true := by
  intro ops
  induction ops with
  | nil => exact fun s0 r hr hd => ⟨r, hr, hd⟩
  | cons op rest ih =>
    intro s0 r hr hd
    have hstep : ∃ r', progApply s0 op oid = some r' ∧ r'.done = true := by
      cases op with
      | set i m t =>
        by_cases hi : i = ""
        · exact ⟨r, by simp [progApply, progress_set, hi, hr], hd⟩
        · by_cases hoi : oid = i
          · subst hoi
            exact ⟨{ r with msg := m, seq := r.seq + 1, ts := t },
              by simp [progApply, progress_set, hi, hr], hd⟩
          · exact ⟨r, by simp [progApply, progress_set, hi, hoi, hr], hd⟩
      | fin i o res t =>
        by_cases hi : i = ""
        · exact ⟨r, by simp [progApply, progress_done, hi, hr], hd⟩
        · by_cases hoi : oid = i
          · subst hoi
            exact ⟨{ r with done := true, ok := o, result := res, ts := t },
              by simp [progApply, progress_done, hi, hr], rfl⟩
          · exact ⟨r, by simp [progApply, progress_done, hi, hoi, hr], hd⟩
    obtain ⟨r', hr', hd'⟩ := hstep
    exact ih (progApply s0 op) r' hr' hd'

/-- Witness for C9 (amended): starting from a finished record, a later
`progress_set` and `progress_done` leave `done = true`. -/
theorem progress_done_flag_terminal_witness :
    ∃ r', progRun (progress_done cexProgStore "op" true none 5)
      [ProgOp.set "op" "late" 6, ProgOp.fin "op" false none 7] "op" = some r' ∧
      r'.done = true := by
  exact progress_done_flag_terminal "op" _ _ ⟨"Starting...", 1, true, true, none, 5⟩
    (by simp [progress_done, cexProgStore]) rfl

/-- Counterexample to C6 as stated: with empty `ALDI_USERNAME`, a stale
session and a login-looking overview page, `ensure_logged_in` does fail
with `MISSING_CREDS` — but only after issuing the overview GET and the
login-page GET, so the failure is not "before any network call". -/
theorem ensure_logged_in_creds_cex :
    (ensure_logged_in cexAuthEnv).2 = .err "MISSING_CREDS" ∧
    (ensure_logged_in cexAuthEnv).1 = [NetCall.getOverview, NetCall.getLoginPage] ∧
    (ensure_logged_in cexAuthEnv).1 ≠ [] := by
  have hlog : looks_like_login_page "<input name=login_password>" = true := by decide
  have hstale : ¬((10000 : ℚ) < SESSION_OK_TTL_SECONDS) := by
    norm_num [SESSION_OK_TTL_SECONDS]
  refine ⟨?_, ?_, ?_⟩ <;>
    simp [ensure_logged_in, ensure_logged_in_submit, cexAuthEnv, hlog, hstale]

/-- Claim C6 (amended): when the credentials are missing, the session is
stale, the overview looks like a login page and a CSRF token is found on
the first login-page fetch, `ensure_logged_in` fails with `MISSING_CREDS`
strictly before the credential-submission POST — but after the overview
GET and the login-page GET have already been issued, not before all
network calls. -/
theorem ensure_logged_in_missing_creds (e : AuthEnv)
    (hstale : ¬(e.now - e.lastLoginOk < SESSION_OK_TTL_SECONDS))
    (hov : e.overview1.status < 400)
    (hlogin : looks_like_login_page e.overview1.text = true)
    (hlp : e.loginPage1.status < 400)
    (hcsrf : e.loginPage1.csrf.isSome = true)
    (hcreds : e.username = "" ∨ e.password = "") :
    (ensure_logged_in e).2 = .err "MISSING_CREDS" ∧
    NetCall.postLoginCheck ∉ (ensure_logged_in e).1 ∧
    (ensure_logged_in e).1 = [NetCall.getOverview, NetCall.getLoginPage] := by
  obtain ⟨c, hc⟩ := Option.isSome_iff_exists.mp hcsrf
  have h1 : ¬(e.overview1.status ≥ 400) := by omega
  have h2 : ¬(e.loginPage1.status ≥ 400) := by omega
  rcases hcreds with h | h <;>
    refine ⟨?_, ?_, ?_⟩ <;>
      simp [ensure_logged_in, ensure_logged_in_submit, hstale, hlogin, h1, h2, hc, h]

/-- Witness for C6 (amended): the concrete environment of the
counterexample satisfies every hypothesis. -/
theorem ensure_logged_in_missing_creds_witness :
    (ensure_logged_in cexAuthEnv).2 = .err "MISSING_CREDS" ∧
    NetCall.postLoginCheck ∉ (ensure_logged_in cexAuthEnv).1 := by
  have h := ensure_logged_in_missing_creds cexAuthEnv
    (by norm_num [cexAuthEnv, SESSION_OK_TTL_SECONDS])
    (by norm_num [cexAuthEnv])
    (by decide)
    (by norm_num [cexAuthEnv])
    (by decide)
    (Or.inl (by decide))
  exact ⟨h.1, h.2.1⟩

/-- Counterexample to C7 as stated: a populated slot (time "07:60", value
"5") on an enabled line makes `get_next_scheduled_change` raise a
`ValueError` in the `datetime` constructor (minute 60 out of range) —
modelled as `.error ()` — instead of returning a soonest change or `None`. -/
theorem get_next_scheduled_change_cex :
    get_next_scheduled_change cexBadSlotCfg cexNow = .error () ∧
    cexBadSlotCfg.enabled = true ∧
    pyStrip "07:60" ≠ "" ∧ pyStrip "5" ≠ "" := by
  refine ⟨by rfl, rfl, by decide, by decide⟩

theorem bestStep_go (l : List (ℤ × String)) :
    ∀ b : ℤ × String, ∃ r, l.foldl bestStep (some b) = some r ∧
      (r = b ∨ r ∈ l) ∧ r.1 ≤ b.1 ∧ ∀ c ∈ l, r.1 ≤ c.1 := by
  induction l with
  | nil => exact fun b => ⟨b, rfl, Or.inl rfl, le_refl _, by simp⟩
  | cons c tl ih =>
    intro b
    by_cases hcb : c.1 < b.1
    · obtain ⟨r, hfold, hmem, hle, hall⟩ := ih c
      refine ⟨r, ?_, ?_, ?_, ?_⟩
      · rw [List.foldl_cons, show bestStep (some b) c = some c by simp [bestStep, hcb]]
        exact hfold
      · rcases hmem with h | h
        · exact Or.inr (by rw [h]; exact List.mem_cons_self c tl)
        · exact Or.inr (List.mem_cons_of_mem c h)
      · exact le_trans hle (le_of_lt hcb)
      · intro x hx
        rcases List.mem_cons.mp hx with h | h
        · rw [h]; exact hle
        · exact hall x h
    · obtain ⟨r, hfold, hmem, hle, hall⟩ := ih b
      refine ⟨r, ?_, ?_, ?_, ?_⟩
      · rw [List.foldl_cons, show bestStep (some b) c = some b by simp [bestStep, hcb]]
        exact hfold
      · rcases hmem with h | h
        · exact Or.inl h
        · exact Or.inr (List.mem_cons_of_mem c h)
      · exact hle
      · intro x hx
        rcases List.mem_cons.mp hx with h | h
        · rw [h]; exact le_trans hle (not_lt.mp hcb)
        · exact hall x h

theorem selectBest_spec (l : List (ℤ × String)) :
    (selectBest l = none ↔ l = []) ∧
    (∀ p, selectBest l = some p → p ∈ l ∧ ∀ c ∈ l, p.1 ≤ c.1) := by
  cases l with
  | nil => exact ⟨by simp [selectBest], by simp [selectBest]⟩
  | cons c tl =>
    obtain ⟨r, hfold, hmem, hle, hall⟩ := bestStep_go tl c
    have hsel : selectBest (c :: tl) = some r := by
      rw [selectBest, List.foldl_cons]
      simp only [bestStep]
      exact hfold
    refine ⟨by simp [hsel], ?_⟩
    intro p hp
    rw [hsel] at hp
    injection hp with hrp
    subst hrp
    constructor
    · rcases hmem with h | h
      · rw [h]; exact List.mem_cons_self c tl
      · exact List.mem_cons_of_mem c h
    · intro x hx
      rcases List.mem_cons.mp hx with h | h
      · rw [h]; exact hle
      · exact hall x h

theorem slotScan_cand_bounds (now : NowInfo) (dayIdx : ℕ) (slot : Slot) (dt : ℤ) (v : String)
    (h : slotScan now dayIdx slot = .cand dt v) :
    now.absMinutes < dt ∧ dt ≤ now.absMinutes + 7 * 1440 := by
  simp only [slotScan] at h
  split_ifs at h with h1 h2 h3 h4
  all_goals cases h
  simp only [Bool.or_eq_true, decide_eq_true_eq, not_or, not_le, not_lt] at h4
  exact h4

theorem mem_scanWeek (mcfg : MobileCfg) (now : NowInfo) (sc : SlotScan)
    (h : sc ∈ scanWeek mcfg now) : ∃ idx slot, slotScan now idx slot = sc := by
  rw [scanWeek, List.mem_flatten] at h
  obtain ⟨l, hl, hsc⟩ := h
  rw [List.mem_map] at hl
  obtain ⟨p, hp, rfl⟩ := hl
  cases hwd : WEEKDAY_INDEX p.1 with
  | none => simp only [hwd] at hsc; simp at hsc
  | some idx =>
    simp only [hwd] at hsc
    rw [List.mem_map] at hsc
    obtain ⟨slot, hslot, rfl⟩ := hsc
    exact ⟨idx, slot, rfl⟩

theorem scheduleCandidates_bounds (mcfg : MobileCfg) (now : NowInfo) :
    ∀ c ∈ scheduleCandidates mcfg now,
      now.absMinutes < c.1 ∧ c.1 ≤ now.absMinutes + 7 * 1440 := by
  intro c hc
  rw [scheduleCandidates, List.mem_filterMap] at hc
  obtain ⟨sc, hsc, hcand⟩ := hc
  obtain ⟨idx, slot, hscan⟩ := mem_scanWeek mcfg now sc hsc
  cases sc with
  | skip => simp [candOf] at hcand
  | bad => simp [candOf] at hcand
  | cand dt v =>
    simp only [candOf] at hcand
    injection hcand with hc2
    subst hc2
    exact slotScan_cand_bounds now idx slot dt v hscan

/-- Claim C7 (amended): provided every populated slot's digit time fields
form a valid time of day (otherwise the scan raises, see the
counterexample), `get_next_scheduled_change` returns `None` for a disabled
line regardless of slots; a returned next change is a strictly-future
occurrence within the next 7 days of some populated slot, carries that
slot's formatted GB value, and is the soonest such occurrence; and a
`None` result on an enabled line means no populated slot has a
strictly-future occurrence. -/
theorem get_next_scheduled_change_spec (mcfg : MobileCfg) (now : NowInfo)
    (hgood : ∀ sc ∈ scanWeek mcfg now, sc ≠ SlotScan.bad) :
    (mcfg.enabled = false → get_next_scheduled_change mcfg now = .ok none) ∧
    (∀ nc, get_next_scheduled_change mcfg now = .ok (some nc) →
      now.absMinutes < nc.dt ∧ nc.dt ≤ now.absMinutes + 7 * 1440 ∧
      (∃ c ∈ scheduleCandidates mcfg now, nc.dt = c.1 ∧ nc.gb = format_gb_value c.2) ∧
      (∀ c ∈ scheduleCandidates mcfg now, nc.dt ≤ c.1)) ∧
    (mcfg.enabled = true → get_next_scheduled_change mcfg now = .ok none →
      scheduleCandidates mcfg now = []) := by
  have hbad : (scanWeek mcfg now).any (fun sc => sc == SlotScan.bad) = false := by
    rw [List.any_eq_false]
    intro sc hsc
    simpa using hgood sc hsc
  refine ⟨?_, ?_, ?_⟩
  · intro he
    simp [get_next_scheduled_change, he]
  · intro nc h
    cases he : mcfg.enabled with
    | false => simp [get_next_scheduled_change, he] at h
    | true =>
      simp only [get_next_scheduled_change, he, hbad, Bool.not_true, Bool.false_eq_true,
        if_false, Except.ok.injEq] at h
      rw [Option.map_eq_some'] at h
      obtain ⟨p, hp, hfp⟩ := h
      obtain ⟨pmem, pmin⟩ := (selectBest_spec (scheduleCandidates mcfg now)).2 p hp
      obtain ⟨hb1, hb2⟩ := scheduleCandidates_bounds mcfg now p pmem
      subst hfp
      exact ⟨hb1, hb2, ⟨p, pmem, rfl, rfl⟩, fun c hc => pmin c hc⟩
  · intro he h
    simp only [get_next_scheduled_change, he, hbad, Bool.not_true, Bool.false_eq_true,
      if_false, Except.ok.injEq] at h
    rw [Option.map_eq_none'] at h
    exact (selectBest_spec (scheduleCandidates mcfg now)).1.mp h

/-- Witness for C7 (amended): in the concrete schedule `witSchedCfg` at
Monday 10:00, the returned next change is the Monday-noon slot (absolute
minute 14400120, value "20" formatted as "20.00"), which is strictly
future, within 7 days, and soonest among both candidates. -/
theorem get_next_scheduled_change_spec_witness :
    cexNow.absMinutes < 14400120 ∧
    (14400120 : ℤ) ≤ cexNow.absMinutes + 7 * 1440 ∧
    (∃ c ∈ scheduleCandidates witSchedCfg cexNow,
      (14400120 : ℤ) = c.1 ∧ "20.00" = format_gb_value c.2) ∧
    (∀ c ∈ scheduleCandidates witSchedCfg cexNow, (14400120 : ℤ) ≤ c.1) := by
  have hfmt : format_gb_value "20" = "20.00" := by
    have hp : pyFloat? "20" = some 20 := by simp [pyFloat?, listTrim, takeDigits, digitsToNat]
    have h2000 : round ((20 : ℚ) * 100) = 2000 := by
      rw [round_eq]
      norm_num
    simp only [format_gb_value, hp, fmt2dp, h2000]
    decide
  have hok : get_next_scheduled_change witSchedCfg cexNow =
      .ok (some ⟨14400120, "20.00"⟩) := by
    have hsel : selectBest (scheduleCandidates witSchedCfg cexNow) = some (14400120, "20") :=
      rfl
    have hbad : (scanWeek witSchedCfg cexNow).any (fun sc => sc == SlotScan.bad) = false :=
      rfl
    simp only [get_next_scheduled_change, hbad, hsel, Option.map_some']
    rw [hfmt]
    rfl
  have h := (get_next_scheduled_change_spec witSchedCfg cexNow
    (by decide : ∀ sc ∈ scanWeek witSchedCfg cexNow, sc ≠ SlotScan.bad)).2.1
    ⟨14400120, "20.00"⟩ hok
  exact h
